import Mathlib

/-!
Verification development for the Insper room-monitoring engine: a shallow
embedding of the occupancy-analysis core of `main.py` and `buscar_curso.py`.

Raw feed events are modelled as records of optional strings (a `none` field
models a missing XML child tag, whose access raises `AttributeError` in the
source and silently drops the record).  Python dictionaries are modelled as
insertion-ordered association lists (`alGet` / `upsert`), Python sets of
strings or string pairs as duplicate-free lists, and Python `int(...)` /
floor division / modulo by their mathematical counterparts on `Int`.
-/

/-- Python `str.strip()` on a character list (ASCII whitespace; CPython also
strips some further Unicode space characters, not modelled). -/
def trimChars (l : List Char) : List Char :=
  ((l.dropWhile Char.isWhitespace).reverse.dropWhile Char.isWhitespace).reverse

/-- Python `str.strip()`. -/
def pyStrip (s : String) : String := String.mk (trimChars s.data)

/-- Python `str.upper()` (ASCII case mapping; CPython additionally maps
non-ASCII letters, not modelled). -/
def pyUpper (s : String) : String := String.mk (s.data.map Char.toUpper)

/-- Helper of `pySplitColon`: scan left to right, emitting the buffered part at
every ':' occurrence. -/
def splitColonAux : List Char → List Char → List (List Char)
  | [], cur => [cur.reverse]
  | c :: rest, cur =>
    if c = ':' then cur.reverse :: splitColonAux rest []
    else splitColonAux rest (c :: cur)

/-- Python `str.split(':')`. -/
def pySplitColon (s : String) : List String := (splitColonAux s.data []).map String.mk

/-- Helper of `pySplitDash`: scan left to right, consuming each leftmost
non-overlapping occurrence of the three-character separator " - ". -/
def splitDashAux : List Char → List Char → List (List Char)
  | ' ' :: '-' :: ' ' :: rest, cur => cur.reverse :: splitDashAux rest []
  | c :: rest, cur => splitDashAux rest (c :: cur)
  | [], cur => [cur.reverse]

/-- Python `str.split(' - ')`. -/
def pySplitDash (s : String) : List String := (splitDashAux s.data []).map String.mk

/-- Decimal value of a digit list, most significant first. -/
def digitsToNat (l : List Char) : Nat :=
  l.foldl (fun n c => n * 10 + (c.toNat - '0'.toNat)) 0

/-- Parse a non-empty all-digit character list. -/
def natDigits? (l : List Char) : Option Nat :=
  if l ≠ [] ∧ l.all Char.isDigit then some (digitsToNat l) else none

/-- Model of Python `int(str)`: optional surrounding whitespace, an optional
sign, then decimal digits.  (CPython additionally accepts underscore group
separators and non-ASCII digits; those are not modelled.) -/
def pyInt (s : String) : Option Int :=
  match trimChars s.data with
  | '-' :: rest => (natDigits? rest).map (fun n => -(n : Int))
  | '+' :: rest => (natDigits? rest).map (fun n => (n : Int))
  | t => (natDigits? t).map (fun n => (n : Int))

/-- The successful branch of `converter_horario_para_minutos`
(`h, m = map(int, horario_str.split(':'))` followed by `h * 60 + m`). -/
def parseHorarioMin (s : String) : Option Int :=
  match pySplitColon s with
  | [hs, ms] =>
    match pyInt hs, pyInt ms with
    | some h, some m => some (h * 60 + m)
    | _, _ => none
  | _ => none

/-- `converter_horario_para_minutos` from `main.py`: the bare `except` clause
returns 0 on any parse failure. -/
def converter_horario_para_minutos (horario_str : String) : Int :=
  (parseHorarioMin horario_str).getD 0

/-- Python floor division `//` (rounds toward negative infinity). -/
def pyFloorDiv (a b : Int) : Int := Int.fdiv a b

/-- Python modulo `%` (takes the sign of the divisor). -/
def pyMod (a b : Int) : Int := Int.fmod a b

/-- Python `f"{n:02d}"`: zero-pad to width two (the sign counts toward the
width, exactly as in Python). -/
def fmt02 (n : Int) : String :=
  if 0 ≤ n ∧ n < 10 then "0" ++ toString n else toString n

/-- Floor a minute count to its 30-minute block and render it as "HH:MM",
as done inside `agrupar_horarios_30min`. -/
def blocoStr (minutos : Int) : String :=
  let bloco_minutos := pyFloorDiv minutos 30 * 30
  fmt02 (pyFloorDiv bloco_minutos 60) ++ ":" ++ fmt02 (pyMod bloco_minutos 60)

/-- Code-point lexicographic strict comparison on character lists (Python's
string ordering). -/
def charListLt : List Char → List Char → Bool
  | [], [] => false
  | [], _ :: _ => true
  | _ :: _, [] => false
  | a :: as, b :: bs => if a < b then true else if b < a then false else charListLt as bs

/-- Python `<=` on strings. -/
def pyStrLe (a b : String) : Bool := !(charListLt b.data a.data)

/-- Insert a string into a list ordered by code-point order. -/
def insertStr (x : String) : List String → List String
  | [] => [x]
  | y :: ys => if pyStrLe x y then x :: y :: ys else y :: insertStr x ys

/-- Python `sorted` on strings (code-point lexicographic order). -/
def sortStr (l : List String) : List String := l.foldr insertStr []

/-- `agrupar_horarios_30min` from `main.py`: collect the distinct start parts
of the "inicio - termino" range strings, floor each to its 30-minute block and
return the sorted distinct block labels. -/
def agrupar_horarios_30min (todos_horarios : List String) : List String :=
  let horarios_inicio := (todos_horarios.map (fun h => (pySplitDash h).getD 0 "")).dedup
  let horarios_agrupados :=
    ((sortStr horarios_inicio).map
      (fun horario => blocoStr (converter_horario_para_minutos horario))).dedup
  sortStr horarios_agrupados

/-- First-match lookup in an insertion-ordered association list (a Python
dictionary read). -/
def alGet {κ β : Type} [DecidableEq κ] (k : κ) : List (κ × β) → Option β
  | [] => none
  | p :: rest => if p.1 = k then some p.2 else alGet k rest

/-- Python dictionary assignment `d[k] = v`: replace the value in place when
the key is present (keeping its position), else append the new pair. -/
def upsert {κ β : Type} [DecidableEq κ] (k : κ) (v : β) : List (κ × β) → List (κ × β)
  | [] => [(k, v)]
  | p :: rest => if p.1 = k then (k, v) :: rest else p :: upsert k v rest

/-- Python `set.add` on a set modelled as a duplicate-free list. -/
def pySetAdd {β : Type} [DecidableEq β] (v : β) (l : List β) : List β :=
  if v ∈ l then l else l ++ [v]

/-- The dictionary-of-sets accumulation pattern
`if k not in d: d[k] = set()` followed by `d[k].add(v)`, executed for every
element of `l` selected by `sel` (the `try`/`except` guard of each loop body:
`sel e = none` models both a skipped and a dropped event). -/
def foldSetMap {α κ β : Type} [DecidableEq κ] [DecidableEq β]
    (sel : α → Option (κ × β)) (l : List α) : List (κ × List β) :=
  l.foldl
    (fun acc e =>
      match sel e with
      | none => acc
      | some kv => upsert kv.1 (pySetAdd kv.2 ((alGet kv.1 acc).getD [])) acc)
    []

/-- One `CalendarioEvento` element of the feed; `none` models a missing child
tag. -/
structure Evento where
  sala : Option String
  predio : Option String
  horainicio : Option String
  horatermino : Option String
  turma : Option String
  professor : Option String
  titulo : Option String
deriving DecidableEq

/-- The `{"predio": ..., "curso": ...}` record stored per room per range. -/
structure Info where
  predio : String
  curso : String
deriving DecidableEq

/-- `eh_sala_valida` from `main.py` (its argument arrives already stripped). -/
def eh_sala_valida (sala : String) : Bool := sala != "" && pyStrip sala != ""

/-- The three accumulators of the event loop of `extrair_dados_xml`. -/
structure ExtrairState where
  mapa : List (String × List (String × Info))
  predios : List (String × String)
  horarios : List String
deriving DecidableEq

/-- Loop body of `extrair_dados_xml` for a single event: a missing required
field drops the record before any accumulator is touched. -/
def processaEvento (st : ExtrairState) (e : Evento) : ExtrairState :=
  match e.sala with
  | none => st
  | some salaRaw =>
    let sala := pyStrip salaRaw
    if eh_sala_valida sala then
      match e.predio, e.horainicio, e.horatermino, e.turma with
      | some predioRaw, some hiRaw, some htRaw, some turmaRaw =>
        let predio := pyStrip predioRaw
        let hora_inicio := pyStrip hiRaw
        let hora_termino := pyStrip htRaw
        let curso := pyStrip turmaRaw
        let horario_completo := hora_inicio ++ " - " ++ hora_termino
        let predios := upsert sala predio st.predios
        let inner := (alGet horario_completo st.mapa).getD []
        let mapa := upsert horario_completo (upsert sala ⟨predio, curso⟩ inner) st.mapa
        let horarios := pySetAdd horario_completo st.horarios
        ⟨mapa, predios, horarios⟩
      | _, _, _, _ => st
    else st

/-- `extrair_dados_xml` from `main.py`: returns the triple
(`mapa_ocupacao_completo`, `mapa_predios`, `horarios_agrupados`). -/
def extrair_dados_xml (eventos : List Evento) :
    List (String × List (String × Info)) × List (String × String) × List String :=
  let st := eventos.foldl processaEvento ⟨[], [], []⟩
  (st.mapa, st.predios, agrupar_horarios_30min st.horarios)

/-- Output row of `processar_disponibilidade` (the `Sala` dataclass;
`curso = none` on the available side). -/
structure Sala where
  data : String
  dia_semana : String
  horario : String
  sala : String
  predio : String
  curso : Option String
deriving DecidableEq

/-- The overlap test of `processar_disponibilidade`:
`inicio_aula < minuto_fim and fim_aula > minuto_bloco`, where both endpoints
are re-parsed from the "inicio - termino" dictionary key. -/
def aulaNoBloco (horario_aula : String) (minuto_bloco : Int) : Bool :=
  let inicio_aula := converter_horario_para_minutos ((pySplitDash horario_aula).getD 0 "")
  let fim_aula := converter_horario_para_minutos ((pySplitDash horario_aula).getD 1 "")
  decide (inicio_aula < minuto_bloco + 30) && decide (fim_aula > minuto_bloco)

/-- The `salas_ocupadas_neste_bloco` dictionary built for one 30-minute block:
later range keys overwrite earlier ones room by room. -/
def salasOcupadasNesteBloco (mapa : List (String × List (String × Info)))
    (minuto_bloco : Int) : List (String × Info) :=
  mapa.foldl
    (fun acc p =>
      if aulaNoBloco p.1 minuto_bloco then
        p.2.foldl (fun acc2 q => upsert q.1 q.2 acc2) acc
      else acc)
    []

/-- The block label `f"{horario_bloco} - {h_fim:02d}:{m_fim:02d}"`. -/
def horarioFormatado (horario_bloco : String) : String :=
  let minuto_fim := converter_horario_para_minutos horario_bloco + 30
  horario_bloco ++ " - " ++ fmt02 (pyFloorDiv minuto_fim 60) ++ ":" ++ fmt02 (pyMod minuto_fim 60)

/-- `processar_disponibilidade` from `main.py`; the reference date enters only
through the label strings `data_str` and `dia_semana`.  Returns the pair
(`salas_disponiveis`, `salas_ocupadas`). -/
def processar_disponibilidade (mapa : List (String × List (String × Info)))
    (mapa_predios : List (String × String)) (horarios_agrupados : List String)
    (data_str dia_semana : String) : List Sala × List Sala :=
  let todas_salas_sistema := sortStr (mapa_predios.map Prod.fst).dedup
  horarios_agrupados.foldl
    (fun acc horario_bloco =>
      let minuto_bloco := converter_horario_para_minutos horario_bloco
      let horario_fmt := horarioFormatado horario_bloco
      let ocupadas_bloco := salasOcupadasNesteBloco mapa minuto_bloco
      todas_salas_sistema.foldl
        (fun acc2 sala =>
          match alGet sala ocupadas_bloco with
          | some info =>
            (acc2.1, acc2.2 ++ [⟨data_str, dia_semana, horario_fmt, sala, info.predio, some info.curso⟩])
          | none =>
            let predio := (alGet sala mapa_predios).getD "Prédio não identificado"
            (acc2.1 ++ [⟨data_str, dia_semana, horario_fmt, sala, predio, none⟩], acc2.2))
        acc)
    ([], [])

/-- The dictionary key used by `buscar_horarios_sala_referencia`:
`f"{turma} - {titulo_text}" if titulo_text else turma`. -/
def chaveDe (turma titulo_text : String) : String :=
  if titulo_text ≠ "" then turma ++ " - " ++ titulo_text else turma

/-- Per-event selector of the loop body of `buscar_horarios_sala_referencia`:
`none` when a required tag is missing (`AttributeError`) or the room/building
filter or case-insensitive course exclusion rejects the event, else the
course/title key together with the stripped `(horainicio, horatermino)` pair. -/
def selConflito (sala predio curso_excluir : String) (e : Evento) :
    Option (String × (String × String)) :=
  match e.sala, e.predio, e.turma with
  | some salaRaw, some predioRaw, some turmaRaw =>
    let sala_evento := pyStrip salaRaw
    let predio_evento := pyStrip predioRaw
    let turma := pyStrip turmaRaw
    if sala_evento = sala ∧ predio_evento = predio ∧ pyUpper turma ≠ pyUpper curso_excluir then
      match e.horainicio, e.horatermino with
      | some hiRaw, some htRaw =>
        some (chaveDe turma ((e.titulo.map pyStrip).getD ""), (pyStrip hiRaw, pyStrip htRaw))
      | _, _ => none
    else none
  | _, _, _ => none

/-- `buscar_horarios_sala_referencia` from `buscar_curso.py`: map from
course/title key to the set (modelled as a duplicate-free list) of
`(horainicio, horatermino)` string pairs. -/
def buscar_horarios_sala_referencia (eventos : List Evento)
    (sala predio curso_excluir : String) : List (String × List (String × String)) :=
  foldSetMap (selConflito sala predio curso_excluir) eventos

/-- Per-event selector of the room-mapping loop shared by `buscar_salas_livres`,
`sugerir_salas_alternativas` and the report helpers: `none` when a required tag
is missing or the event is in another building, else the stripped room name
with its `(horainicio, horatermino)` pair. -/
def selSalasPredio (predio : String) (e : Evento) : Option (String × (String × String)) :=
  match e.sala, e.predio with
  | some salaRaw, some predioRaw =>
    let sala_evento := pyStrip salaRaw
    let predio_evento := pyStrip predioRaw
    if predio_evento = predio then
      match e.horainicio, e.horatermino with
      | some hiRaw, some htRaw => some (sala_evento, (pyStrip hiRaw, pyStrip htRaw))
      | _, _ => none
    else none
  | _, _ => none

/-- The room → booked-ranges dictionary for one building, built identically at
the top of `buscar_salas_livres` and (per blocked range) inside
`sugerir_salas_alternativas`. -/
def salasPredioDe (eventos : List Evento) (predio : String) :
    List (String × List (String × String)) :=
  foldSetMap (selSalasPredio predio) eventos

/-- Output row of `buscar_salas_livres`. -/
structure SalaLivre where
  sala : String
  predio : String
  horario_inicio : String
  horario_termino : String
deriving DecidableEq

/-- The per-room qualification test of `buscar_salas_livres`: the loop sets
`sala_livre = False` (and breaks) iff some blocked pair is literally among the
room's booked pairs. -/
def salaLivreEm (horarios_ocupados : List (String × String))
    (horarios_bloqueados : List (String × String)) : Bool :=
  horarios_bloqueados.all (fun hb => !(decide (hb ∈ horarios_ocupados)))

/-- `buscar_salas_livres` from `buscar_curso.py`.  The Python set argument
`horarios_bloqueados` is modelled as the list of its elements. -/
def buscar_salas_livres (eventos : List Evento) (predio : String)
    (horarios_bloqueados : List (String × String)) : List SalaLivre :=
  let salas_predio := salasPredioDe eventos predio
  salas_predio.foldl
    (fun salas_livres p =>
      if salaLivreEm p.2 horarios_bloqueados then
        salas_livres ++ horarios_bloqueados.map (fun hb => ⟨p.1, predio, hb.1, hb.2⟩)
      else salas_livres)
    []

/-- `sugerir_salas_alternativas` from `buscar_curso.py`: the formatted
suggestion text (at most `max_sugestoes` blocked ranges, at most two room
names each). -/
def sugerir_salas_alternativas (eventos : List Evento) (predio : String)
    (horarios_bloqueados : List (String × String)) (salas_excluir : List String)
    (max_sugestoes : Nat) : String :=
  let salas_livres_por_horario :=
    horarios_bloqueados.map (fun hb =>
      let salas_predio := salasPredioDe eventos predio
      let todas_salas := (salas_predio.map Prod.fst).dedup
      let salas_ocupadas := ((salas_predio.filter (fun p => decide (hb ∈ p.2))).map Prod.fst).dedup
      let salas_livres :=
        sortStr (todas_salas.filter
          (fun s => !(decide (s ∈ salas_ocupadas)) && !(decide (s ∈ salas_excluir))))
      (hb, salas_livres))
  (salas_livres_por_horario.foldl
    (fun acc q =>
      if q.2 ≠ [] ∧ acc.2 < max_sugestoes then
        (acc.1 ++ "💡 *SUGESTÃO* - " ++ q.1.1 ++ " a " ++ q.1.2 ++ ":\n"
          ++ String.join ((q.2.take 2).map (fun s => "   Sala " ++ s ++ " está livre\n"))
          ++ "\n", acc.2 + 1)
      else acc)
    ("", 0)).1

/-- The normalized bookings of room `r`: the parsed `(start, end)` minute pair
of every time-range key of `mapa_ocupacao_completo` whose room map contains
`r`, parsed by the same split used in `processar_disponibilidade`. -/
def bookingsFor (mapa : List (String × List (String × Info))) (r : String) :
    List (Int × Int) :=
  (mapa.filter (fun p => (alGet r p.2).isSome)).map
    (fun p =>
      (converter_horario_para_minutos ((pySplitDash p.1).getD 0 ""),
       converter_horario_para_minutos ((pySplitDash p.1).getD 1 "")))

/-- The §4.2 overlap rule of the specification, applied to raw "HH:MM" strings:
`start < intervalEnd AND end > intervalStart`.  Stated from the spec's words,
for comparison against the code's exact-membership test. -/
def overlapRule (bStart bEnd iStart iEnd : String) : Bool :=
  decide (converter_horario_para_minutos bStart < converter_horario_para_minutos iEnd) &&
  decide (converter_horario_para_minutos bEnd > converter_horario_para_minutos iStart)

/-- Concrete feed event: course CS101 in room 101 of building A, 09:00-10:30
(first booking of the specification's §8 double-booking scenario). -/
def eventoCS101 : Evento := ⟨some "101", some "A", some "09:00", some "10:30", some "CS101", none, none⟩

/-- Concrete feed event: course MATH20 in room 101 of building A, 10:00-11:00
(second booking of the specification's §8 double-booking scenario). -/
def eventoMATH20 : Evento := ⟨some "101", some "A", some "10:00", some "11:00", some "MATH20", none, none⟩

/-- Concrete feed event: room A1 of building P booked 10:00-11:00 by CS101. -/
def eventoA1 : Evento := ⟨some "A1", some "P", some "10:00", some "11:00", some "CS101", none, none⟩

/-- Concrete feed event with a non-positive-duration interval (10:01-10:01). -/
def eventoDuracaoZero : Evento := ⟨some "R1", some "P", some "10:01", some "10:01", some "CURSO X", none, none⟩

/-- Concrete feed event carrying a `titulo` child. -/
def eventoTitulo : Evento := ⟨some "513", some "P", some "10:00", some "11:00", some "MATH20", none, some "Limits"⟩

/-- Concrete feed event: a single long booking 09:00-12:00 in room 101. -/
def eventoLongo : Evento := ⟨some "101", some "A", some "09:00", some "12:00", some "CS101", none, none⟩

/-! ### Association-list and set lemmas -/

/-- Lookup after a Python dictionary assignment. -/
theorem alGet_upsert {κ β : Type} [DecidableEq κ] (k r : κ) (v : β) (l : List (κ × β)) :
    alGet r (upsert k v l) = if k = r then some v else alGet r l := by
  induction l with
  | nil => by_cases h : k = r <;> simp [upsert, alGet, h]
  | cons p rest ih =>
    by_cases hk : p.1 = k
    · by_cases hr : k = r
      · simp [upsert, alGet, hk, hr]
      · have hpr : ¬ p.1 = r := fun h => hr (hk.symm.trans h)
        simp [upsert, alGet, hk, hr, hpr]
    · by_cases hr : p.1 = r
      · have hkr : ¬ k = r := fun h => hk (hr.trans h.symm)
        have hrk : ¬ r = k := fun h => hkr h.symm
        simp [upsert, alGet, hk, hr, hkr, hrk]
      · simp [upsert, alGet, hk, hr, ih]

/-- A successful lookup means a pair with that key is present. -/
theorem isSome_alGet {κ β : Type} [DecidableEq κ] (r : κ) (l : List (κ × β)) :
    (alGet r l).isSome = true ↔ ∃ p ∈ l, p.1 = r := by
  induction l with
  | nil => simp [alGet]
  | cons p rest ih => by_cases h : p.1 = r <;> simp [alGet, h, ih]

/-- `upsert` yields the assigned pair or a pair already present. -/
theorem mem_upsert {κ β : Type} [DecidableEq κ] (k : κ) (v : β) (l : List (κ × β))
    (p : κ × β) (h : p ∈ upsert k v l) : p = (k, v) ∨ p ∈ l := by
  induction l with
  | nil => simpa [upsert] using h
  | cons q rest ih =>
    by_cases hq : q.1 = k
    · simp only [upsert, hq, if_pos] at h
      rcases List.mem_cons.mp h with h | h
      · exact Or.inl h
      · exact Or.inr (List.mem_cons_of_mem _ h)
    · simp only [upsert, hq, if_neg, not_false_iff] at h
      rcases List.mem_cons.mp h with h | h
      · exact Or.inr (h ▸ List.mem_cons_self _ _)
      · rcases ih h with h | h
        · exact Or.inl h
        · exact Or.inr (List.mem_cons_of_mem _ h)

/-- A found value is an entry of the list. -/
theorem alGet_mem {κ β : Type} [DecidableEq κ] (r : κ) (l : List (κ × β)) (v : β)
    (h : alGet r l = some v) : (r, v) ∈ l := by
  induction l with
  | nil => simp [alGet] at h
  | cons p rest ih =>
    by_cases hp : p.1 = r
    · simp only [alGet, hp, if_pos, Option.some.injEq] at h
      have : p = (r, v) := Prod.ext hp h
      exact this ▸ List.mem_cons_self _ _
    · simp only [alGet, hp, if_neg, not_false_iff] at h
      exact List.mem_cons_of_mem _ (ih h)

/-- Membership after a Python `set.add`. -/
theorem mem_pySetAdd {β : Type} [DecidableEq β] (v x : β) (l : List β) :
    x ∈ pySetAdd v l ↔ x ∈ l ∨ x = v := by
  by_cases h : v ∈ l
  · simp only [pySetAdd, if_pos h]
    exact ⟨Or.inl, fun hx => hx.elim id (fun e => e ▸ h)⟩
  · simp [pySetAdd, if_neg h]

/-- `set.add` keeps the set duplicate-free. -/
theorem nodup_pySetAdd {β : Type} [DecidableEq β] (v : β) (l : List β) (h : l.Nodup) :
    (pySetAdd v l).Nodup := by
  by_cases hv : v ∈ l
  · simpa [pySetAdd, hv] using h
  · simp only [pySetAdd, if_neg hv]
    rw [List.nodup_append_comm]
    simpa [hv] using h

/-! ### Lemmas about the dictionary-of-sets fold -/

/-- Generalised accumulator form of the `foldSetMap` membership law. -/
theorem alGet_foldl_setStep {α κ β : Type} [DecidableEq κ] [DecidableEq β]
    (sel : α → Option (κ × β)) (l : List α) :
    ∀ (acc : List (κ × List β)) (k : κ) (v : β),
      v ∈ (alGet k (l.foldl
          (fun acc e =>
            match sel e with
            | none => acc
            | some kv => upsert kv.1 (pySetAdd kv.2 ((alGet kv.1 acc).getD [])) acc)
          acc)).getD [] ↔
        v ∈ (alGet k acc).getD [] ∨ ∃ e ∈ l, sel e = some (k, v) := by
  induction l with
  | nil => intro acc k v; simp
  | cons e rest ih =>
    intro acc k v
    rw [List.foldl_cons]
    rcases hse : sel e with - | ⟨k', v'⟩
    · rw [ih]
      simp [hse]
    · rw [ih, alGet_upsert]
      by_cases hk : k' = k
      · subst hk
        rw [if_pos rfl]
        simp only [Option.getD_some, mem_pySetAdd]
        simp only [hse, List.mem_cons, Option.some.injEq, Prod.mk.injEq]
        constructor
        · rintro (⟨h | h⟩ | ⟨e2, he2, hs2⟩)
          · exact Or.inl h
          · exact Or.inr ⟨e, Or.inl rfl, by rw [h]; exact hse⟩
          · exact Or.inr ⟨e2, Or.inr he2, hs2⟩
        · rintro (h | ⟨e2, he2 | he2, hs2⟩)
          · exact Or.inl (Or.inl h)
          · subst he2
            rw [hse] at hs2
            injection hs2 with hs2
            injection hs2 with h1 h2
            exact Or.inl (Or.inr h2.symm)
          · exact Or.inr ⟨e2, he2, hs2⟩
      · rw [if_neg hk]
        simp only [hse, List.mem_cons, Option.some.injEq, Prod.mk.injEq]
        constructor
        · rintro (h | ⟨e2, he2, hs2⟩)
          · exact Or.inl h
          · exact Or.inr ⟨e2, Or.inr he2, hs2⟩
        · rintro (h | ⟨e2, he2 | he2, hs2⟩)
          · exact Or.inl h
          · subst he2
            rw [hse] at hs2
            injection hs2 with hs2
            injection hs2 with h1 h2
            exact absurd h1 hk
          · exact Or.inr ⟨e2, he2, hs2⟩

/-- Membership law of the dictionary-of-sets accumulation: a value sits in the
set stored at key `k` iff some processed element put it there. -/
theorem mem_alGet_foldSetMap {α κ β : Type} [DecidableEq κ] [DecidableEq β]
    (sel : α → Option (κ × β)) (l : List α) (k : κ) (v : β) :
    v ∈ (alGet k (foldSetMap sel l)).getD [] ↔ ∃ e ∈ l, sel e = some (k, v) := by
  rw [foldSetMap, alGet_foldl_setStep]
  simp [alGet]

/-- Every set stored by the dictionary-of-sets accumulation is duplicate-free. -/
theorem nodup_foldSetMap {α κ β : Type} [DecidableEq κ] [DecidableEq β]
    (sel : α → Option (κ × β)) (l : List α) :
    ∀ p ∈ foldSetMap sel l, p.2.Nodup := by
  suffices H : ∀ (acc : List (κ × List β)), (∀ p ∈ acc, p.2.Nodup) →
      ∀ p ∈ (l.foldl
          (fun acc e =>
            match sel e with
            | none => acc
            | some kv => upsert kv.1 (pySetAdd kv.2 ((alGet kv.1 acc).getD [])) acc)
          acc), p.2.Nodup by
    exact H [] (by simp)
  induction l with
  | nil => intro acc hacc; simpa using hacc
  | cons e rest ih =>
    intro acc hacc
    rw [List.foldl_cons]
    apply ih
    rcases hse : sel e with - | ⟨k', v'⟩
    · simpa [hse] using hacc
    · simp only [hse]
      intro p hp
      rcases mem_upsert _ _ _ _ hp with hp | hp
      · subst hp
        apply nodup_pySetAdd
        rcases hget : alGet k' acc with - | w
        · simp
        · simpa using hacc (k', w) (alGet_mem _ _ _ hget)
      · exact hacc p hp

/-! ### Sorting and grid-membership lemmas -/

/-- Membership through ordered insertion. -/
theorem mem_insertStr (x a : String) (l : List String) :
    x ∈ insertStr a l ↔ x = a ∨ x ∈ l := by
  induction l with
  | nil => simp [insertStr]
  | cons y ys ih =>
    by_cases h : pyStrLe a y = true
    · simp [insertStr, h]
    · simp [insertStr, h, ih]
      tauto

/-- Sorting does not change membership. -/
theorem mem_sortStr (x : String) (l : List String) : x ∈ sortStr l ↔ x ∈ l := by
  induction l with
  | nil => simp [sortStr]
  | cons y ys ih =>
    show x ∈ insertStr y (sortStr ys) ↔ _
    rw [mem_insertStr, ih]
    simp

/-- Membership in the 30-minute grid: a label is a grid block iff it is the
floored start part of one of the recorded range strings. -/
theorem mem_agrupar (todos : List String) (b : String) :
    b ∈ agrupar_horarios_30min todos ↔
      ∃ h ∈ todos,
        blocoStr (converter_horario_para_minutos ((pySplitDash h).getD 0 "")) = b := by
  simp only [agrupar_horarios_30min, mem_sortStr, List.mem_dedup, List.mem_map]
  constructor
  · rintro ⟨x, ⟨h, hh, hxh⟩, hb⟩
    exact ⟨h, hh, by rw [hxh, hb]⟩
  · rintro ⟨h, hh, hb⟩
    exact ⟨(pySplitDash h).getD 0 "", ⟨h, hh, rfl⟩, hb⟩

/-! ### Per-block occupancy lemmas -/

/-- Presence after the inner room-by-room overwrite fold. -/
theorem isSome_alGet_foldl_upsert {κ β : Type} [DecidableEq κ] (inner : List (κ × β)) :
    ∀ (acc : List (κ × β)) (r : κ),
      (alGet r (inner.foldl (fun acc2 q => upsert q.1 q.2 acc2) acc)).isSome = true ↔
        (∃ q ∈ inner, q.1 = r) ∨ (alGet r acc).isSome = true := by
  induction inner with
  | nil => intro acc r; simp
  | cons q rest ih =>
    intro acc r
    rw [List.foldl_cons, ih, alGet_upsert]
    by_cases h : q.1 = r <;> simp [h]

/-- A room is present in the per-block occupancy dictionary iff some recorded
time-range overlapping the block contains the room. -/
theorem isSome_salasOcupadasNesteBloco (mapa : List (String × List (String × Info)))
    (minuto_bloco : Int) (r : String) :
    (alGet r (salasOcupadasNesteBloco mapa minuto_bloco)).isSome = true ↔
      ∃ p ∈ mapa, aulaNoBloco p.1 minuto_bloco = true ∧ ∃ q ∈ p.2, q.1 = r := by
  suffices H : ∀ acc : List (String × Info),
      (alGet r (mapa.foldl
          (fun acc p =>
            if aulaNoBloco p.1 minuto_bloco then
              p.2.foldl (fun acc2 q => upsert q.1 q.2 acc2) acc
            else acc)
          acc)).isSome = true ↔
        (∃ p ∈ mapa, aulaNoBloco p.1 minuto_bloco = true ∧ ∃ q ∈ p.2, q.1 = r) ∨
          (alGet r acc).isSome = true by
    rw [salasOcupadasNesteBloco, H]
    simp [alGet]
  induction mapa with
  | nil => intro acc; simp
  | cons p rest ih =>
    intro acc
    rw [List.foldl_cons]
    by_cases hb : aulaNoBloco p.1 minuto_bloco = true
    · rw [if_pos hb, ih, isSome_alGet_foldl_upsert]
      constructor
      · rintro (⟨p2, hp2, hcond, hq⟩ | hq | hacc)
        · exact Or.inl ⟨p2, List.mem_cons_of_mem _ hp2, hcond, hq⟩
        · exact Or.inl ⟨p, List.mem_cons_self _ _, hb, hq⟩
        · exact Or.inr hacc
      · rintro (⟨p2, hp2, hcond, hq⟩ | hacc)
        · rcases List.mem_cons.mp hp2 with h | h
          · subst h
            exact Or.inr (Or.inl hq)
          · exact Or.inl ⟨p2, h, hcond, hq⟩
        · exact Or.inr (Or.inr hacc)
    · rw [if_neg hb, ih]
      constructor
      · rintro (⟨p2, hp2, hcond, hq⟩ | hacc)
        · exact Or.inl ⟨p2, List.mem_cons_of_mem _ hp2, hcond, hq⟩
        · exact Or.inr hacc
      · rintro (⟨p2, hp2, hcond, hq⟩ | hacc)
        · rcases List.mem_cons.mp hp2 with h | h
          · subst h
            exact absurd hcond hb
          · exact Or.inl ⟨p2, h, hcond, hq⟩
        · exact Or.inr hacc

/-! ### Free-room search lemmas -/

/-- Generalised accumulator form of membership in the `buscar_salas_livres`
output. -/
theorem sala_mem_livres_foldl (predio : String) (bl : List (String × String))
    (sp : List (String × List (String × String))) (s : String) :
    ∀ acc : List SalaLivre,
      (∃ x ∈ sp.foldl
          (fun salas_livres p =>
            if salaLivreEm p.2 bl then
              salas_livres ++ bl.map (fun hb => ⟨p.1, predio, hb.1, hb.2⟩)
            else salas_livres)
          acc, x.sala = s) ↔
        (∃ x ∈ acc, x.sala = s) ∨
          ((∃ hb, hb ∈ bl) ∧ ∃ p ∈ sp, p.1 = s ∧ salaLivreEm p.2 bl = true) := by
  induction sp with
  | nil => intro acc; simp
  | cons p rest ih =>
    intro acc
    rw [List.foldl_cons]
    by_cases hf : salaLivreEm p.2 bl = true
    · rw [if_pos hf, ih]
      simp only [List.mem_append, List.mem_map, List.mem_cons]
      constructor
      · rintro (⟨x, hx | ⟨hb, hhb, hxb⟩, hs⟩ | ⟨hbl, q, hq, hqs, hqf⟩)
        · exact Or.inl ⟨x, hx, hs⟩
        · exact Or.inr ⟨⟨hb, hhb⟩, p, Or.inl rfl, by rw [← hs, ← hxb], hf⟩
        · exact Or.inr ⟨hbl, q, Or.inr hq, hqs, hqf⟩
      · rintro (⟨x, hx, hs⟩ | ⟨⟨hb, hhb⟩, q, hq | hq, hqs, hqf⟩)
        · exact Or.inl ⟨x, Or.inl hx, hs⟩
        · subst hq
          exact Or.inl ⟨⟨q.1, predio, hb.1, hb.2⟩, Or.inr ⟨hb, hhb, rfl⟩, hqs⟩
        · exact Or.inr ⟨⟨hb, hhb⟩, q, hq, hqs, hqf⟩
    · rw [if_neg hf, ih]
      simp only [List.mem_cons]
      constructor
      · rintro (h | ⟨hbl, q, hq, hqs, hqf⟩)
        · exact Or.inl h
        · exact Or.inr ⟨hbl, q, Or.inr hq, hqs, hqf⟩
      · rintro (h | ⟨hbl, q, hq | hq, hqs, hqf⟩)
        · exact Or.inl h
        · subst hq
          exact absurd hqf hf
        · exact Or.inr ⟨hbl, q, hq, hqs, hqf⟩

/-- Membership in the `buscar_salas_livres` output, by room name. -/
theorem sala_mem_buscar_salas_livres (eventos : List Evento) (predio : String)
    (bl : List (String × String)) (s : String) :
    (∃ x ∈ buscar_salas_livres eventos predio bl, x.sala = s) ↔
      bl ≠ [] ∧ ∃ p ∈ salasPredioDe eventos predio, p.1 = s ∧ salaLivreEm p.2 bl = true := by
  rw [buscar_salas_livres, sala_mem_livres_foldl]
  simp only [List.mem_nil_iff, false_and, exists_false, false_or]
  constructor
  · rintro ⟨⟨hb, hhb⟩, h⟩
    exact ⟨fun hnil => by simp [hnil] at hhb, h⟩
  · rintro ⟨hne, h⟩
    rcases List.exists_mem_of_ne_nil bl hne with ⟨hb, hhb⟩
    exact ⟨⟨hb, hhb⟩, h⟩

/-- Generalised accumulator form of the output-length law of
`buscar_salas_livres`. -/
theorem length_livres_foldl (predio : String) (bl : List (String × String))
    (sp : List (String × List (String × String))) :
    ∀ acc : List SalaLivre,
      (sp.foldl
          (fun salas_livres p =>
            if salaLivreEm p.2 bl then
              salas_livres ++ bl.map (fun hb => ⟨p.1, predio, hb.1, hb.2⟩)
            else salas_livres)
          acc).length =
        acc.length + (sp.filter (fun p => salaLivreEm p.2 bl)).length * bl.length := by
  induction sp with
  | nil => intro acc; simp
  | cons p rest ih =>
    intro acc
    rw [List.foldl_cons]
    by_cases hf : salaLivreEm p.2 bl = true
    · rw [if_pos hf, ih]
      simp [List.filter_cons, hf, Nat.succ_mul]
      omega
    · rw [if_neg hf, ih]
      simp [List.filter_cons, hf]

/-! ### Retention lemmas for the extraction loop -/

/-- Lookup success survives any dictionary assignment. -/
theorem isSome_alGet_upsert_of {κ β : Type} [DecidableEq κ] (k r : κ) (v : β)
    (l : List (κ × β)) (h : (alGet r l).isSome = true) :
    (alGet r (upsert k v l)).isSome = true := by
  rw [alGet_upsert]
  split <;> simp [h]

/-- Set membership survives `set.add`. -/
theorem mem_pySetAdd_of {β : Type} [DecidableEq β] (v x : β) (l : List β) (h : x ∈ l) :
    x ∈ pySetAdd v l := (mem_pySetAdd v x l).mpr (Or.inl h)

/-- One extraction step never removes a building entry, an occupancy key or a
recorded range string. -/
theorem processaEvento_preserva (st : ExtrairState) (e : Evento) (r hc : String) :
    ((alGet r st.predios).isSome = true → (alGet r (processaEvento st e).predios).isSome = true) ∧
    ((alGet hc st.mapa).isSome = true → (alGet hc (processaEvento st e).mapa).isSome = true) ∧
    (hc ∈ st.horarios → hc ∈ (processaEvento st e).horarios) := by
  rcases e with ⟨sala?, predio?, hi?, ht?, turma?, prof?, tit?⟩
  rcases sala? with - | salaRaw
  · exact ⟨id, id, id⟩
  · by_cases hval : eh_sala_valida (pyStrip salaRaw) = true
    · rcases predio? with - | predioRaw
      · simp only [processaEvento, hval, if_true]
        exact ⟨id, id, id⟩
      · rcases hi? with - | hiRaw
        · simp only [processaEvento, hval, if_true]
          exact ⟨id, id, id⟩
        · rcases ht? with - | htRaw
          · simp only [processaEvento, hval, if_true]
            exact ⟨id, id, id⟩
          · rcases turma? with - | turmaRaw
            · simp only [processaEvento, hval, if_true]
              exact ⟨id, id, id⟩
            · simp only [processaEvento, hval, if_true]
              exact ⟨fun h => isSome_alGet_upsert_of _ _ _ _ h,
                fun h => isSome_alGet_upsert_of _ _ _ _ h,
                fun h => mem_pySetAdd_of _ _ _ h⟩
    · simp only [processaEvento, hval, if_false]
      exact ⟨id, id, id⟩

/-- The whole extraction loop never removes a building entry, an occupancy key
or a recorded range string. -/
theorem foldl_processaEvento_preserva (evs : List Evento) :
    ∀ (st : ExtrairState) (r hc : String),
      ((alGet r st.predios).isSome = true →
        (alGet r (evs.foldl processaEvento st).predios).isSome = true) ∧
      ((alGet hc st.mapa).isSome = true →
        (alGet hc (evs.foldl processaEvento st).mapa).isSome = true) ∧
      (hc ∈ st.horarios → hc ∈ (evs.foldl processaEvento st).horarios) := by
  induction evs with
  | nil => intro st r hc; exact ⟨id, id, id⟩
  | cons e rest ih =>
    intro st r hc
    rw [List.foldl_cons]
    rcases processaEvento_preserva st e r hc with ⟨h1, h2, h3⟩
    rcases ih (processaEvento st e) r hc with ⟨g1, g2, g3⟩
    exact ⟨fun h => g1 (h1 h), fun h => g2 (h2 h), fun h => g3 (h3 h)⟩

/-- Any event with all required tags and a valid room name is retained by the
extraction loop, wherever it occurs in the feed and whatever its time strings
say: its room enters `mapa_predios`, its range string keys
`mapa_ocupacao_completo` and is recorded among the observed ranges. -/
theorem extrair_retem (evs₁ evs₂ : List Evento)
    (salaRaw predioRaw hiRaw htRaw turmaRaw : String) (prof tit : Option String)
    (hval : eh_sala_valida (pyStrip salaRaw) = true) :
    (alGet (pyStrip salaRaw)
        (((evs₁ ++ ⟨some salaRaw, some predioRaw, some hiRaw, some htRaw, some turmaRaw,
            prof, tit⟩ :: evs₂).foldl processaEvento ⟨[], [], []⟩).predios)).isSome = true ∧
    (alGet (pyStrip hiRaw ++ " - " ++ pyStrip htRaw)
        (((evs₁ ++ ⟨some salaRaw, some predioRaw, some hiRaw, some htRaw, some turmaRaw,
            prof, tit⟩ :: evs₂).foldl processaEvento ⟨[], [], []⟩).mapa)).isSome = true ∧
    (pyStrip hiRaw ++ " - " ++ pyStrip htRaw) ∈
      ((evs₁ ++ ⟨some salaRaw, some predioRaw, some hiRaw, some htRaw, some turmaRaw,
          prof, tit⟩ :: evs₂).foldl processaEvento ⟨[], [], []⟩).horarios := by
  rw [List.foldl_append, List.foldl_cons]
  generalize evs₁.foldl processaEvento ⟨[], [], []⟩ = mid
  rcases foldl_processaEvento_preserva evs₂
      (processaEvento mid ⟨some salaRaw, some predioRaw, some hiRaw, some htRaw,
        some turmaRaw, prof, tit⟩)
      (pyStrip salaRaw) (pyStrip hiRaw ++ " - " ++ pyStrip htRaw) with ⟨g1, g2, g3⟩
  refine ⟨g1 ?_, g2 ?_, g3 ?_⟩
  · simp only [processaEvento, hval, if_true]
    simp [alGet_upsert]
  · simp only [processaEvento, hval, if_true]
    simp [alGet_upsert]
  · simp only [processaEvento, hval, if_true]
    simp [mem_pySetAdd]

/-! ### Empty-feed lemma for the suggestion text -/

/-- The suggestion fold emits nothing when every blocked range has an empty
free-room list. -/
theorem foldSugestoes_vazio (bl : List (String × String)) (m : Nat) :
    ∀ acc : String × Nat,
      ((bl.map (fun hb => (hb, ([] : List String)))).foldl
        (fun acc q =>
          if q.2 ≠ [] ∧ acc.2 < m then
            (acc.1 ++ "💡 *SUGESTÃO* - " ++ q.1.1 ++ " a " ++ q.1.2 ++ ":\n"
              ++ String.join ((q.2.take 2).map (fun s => "   Sala " ++ s ++ " está livre\n"))
              ++ "\n", acc.2 + 1)
          else acc)
        acc) = acc := by
  induction bl with
  | nil => intro acc; rfl
  | cons hb rest ih =>
    intro acc
    rw [List.map_cons, List.foldl_cons]
    simp only [ne_eq, not_true_eq_false, false_and, if_false]
    exact ih acc

/-- An empty feed produces an empty suggestion text, for every building, every
blocked-range set, every exclusion set and every suggestion budget. -/
theorem sugerir_vazio (predio : String) (bl : List (String × String))
    (ex : List String) (m : Nat) :
    sugerir_salas_alternativas [] predio bl ex m = "" := by
  rw [sugerir_salas_alternativas]
  have hsp : salasPredioDe [] predio = [] := rfl
  simp only [hsp, List.map_nil, List.dedup_nil, List.filter_nil]
  show ((bl.map fun hb => (hb, sortStr [])).foldl _ ("", 0)).1 = ""
  rw [show sortStr [] = [] from rfl]
  rw [foldSugestoes_vazio]

/-! ### Claim theorems -/

/-- C1: at the specification's own §8 double-booking scenario (CS101 09:00-10:30
and MATH20 10:00-11:00, both in room 101 of building A), no block of the built
grid records both courses for the room.  The per-room dictionary write of
`processar_disponibilidade` keeps a single occupant per room — the last
overlapping range key written — so block 09:00 records CS101 alone and block
10:00 records MATH20 alone, silently dropping the genuine conflict the claim
requires to be visible in some block. -/
theorem c1_double_booking_overwritten :
    (extrair_dados_xml [eventoCS101, eventoMATH20]).2.2 = ["09:00", "10:00"] ∧
    salasOcupadasNesteBloco (extrair_dados_xml [eventoCS101, eventoMATH20]).1 540 =
      [("101", ⟨"A", "CS101"⟩)] ∧
    salasOcupadasNesteBloco (extrair_dados_xml [eventoCS101, eventoMATH20]).1 600 =
      [("101", ⟨"A", "MATH20"⟩)] := by decide

/-- C2 counterexample: room A1 is booked 10:00-11:00, which overlaps the
blocked range 10:30-11:30 under the §4.2 overlap rule, yet
`buscar_salas_livres` reports A1 free — the code tests exact membership of the
blocked `(start, end)` pair among the room's booked pairs, not overlap. -/
theorem c2_overlap_not_checked_counterexample :
    (∃ x ∈ buscar_salas_livres [eventoA1] "P" [("10:30", "11:30")], x.sala = "A1") ∧
    overlapRule "10:00" "11:00" "10:30" "11:30" = true ∧
    ("10:00", "11:00") ∈ (alGet "A1" (salasPredioDe [eventoA1] "P")).getD [] := by
  refine ⟨by decide, by decide, by decide⟩

/-- C2 (amended): a room of the building is reported free by
`buscar_salas_livres` iff the blocked set is non-empty and none of the blocked
`(start, end)` pairs is literally equal to one of the room's booked pairs;
overlap short of exact string equality does not disqualify a room. -/
theorem c2_free_iff_no_exact_match (eventos : List Evento) (predio : String)
    (bl : List (String × String)) (s : String) :
    (∃ x ∈ buscar_salas_livres eventos predio bl, x.sala = s) ↔
      bl ≠ [] ∧ ∃ p ∈ salasPredioDe eventos predio, p.1 = s ∧ ∀ hb ∈ bl, hb ∉ p.2 := by
  rw [sala_mem_buscar_salas_livres]
  simp only [salaLivreEm, List.all_eq_true, Bool.not_eq_true', decide_eq_false_iff_not]

/-- C3 counterexample: a single booking 09:00-12:00 yields the one-block grid
["09:00"]; neither the intermediate block 09:30 nor a block 11:30 covering the
latest booking end is present, refuting the claimed contiguous span. -/
theorem c3_span_counterexample :
    (extrair_dados_xml [eventoLongo]).2.2 = ["09:00"] ∧
    "09:30" ∉ (extrair_dados_xml [eventoLongo]).2.2 ∧
    "11:30" ∉ (extrair_dados_xml [eventoLongo]).2.2 := by decide

/-- C3 (amended): the set of grid blocks is exactly the set of distinct
floored start parts of the recorded booking ranges — a label is in the grid
iff some recorded range string floors to it; no intermediate blocks are filled
in and no block is added to cover booking ends. -/
theorem c3_grid_blocks_are_floored_starts (eventos : List Evento) (b : String) :
    b ∈ (extrair_dados_xml eventos).2.2 ↔
      ∃ h ∈ (eventos.foldl processaEvento ⟨[], [], []⟩).horarios,
        blocoStr (converter_horario_para_minutos ((pySplitDash h).getD 0 "")) = b := by
  have hgrid : (extrair_dados_xml eventos).2.2 =
      agrupar_horarios_30min (eventos.foldl processaEvento ⟨[], [], []⟩).horarios := rfl
  rw [hgrid, mem_agrupar]

/-- C4: for every grid block and every room of the registry, the room is
recorded in the block's occupancy dictionary iff some normalized booking of
that room satisfies `start < blockEnd` and `end > blockStart` with strict
inequalities, where `blockStart` is the parsed block label and
`blockEnd = blockStart + 30`. -/
theorem c4_occupied_iff_overlap (eventos : List Evento) (hb r : String)
    (_hgrid : hb ∈ (extrair_dados_xml eventos).2.2)
    (_hreg : r ∈ ((extrair_dados_xml eventos).2.1).map Prod.fst) :
    (alGet r (salasOcupadasNesteBloco (extrair_dados_xml eventos).1
        (converter_horario_para_minutos hb))).isSome = true ↔
      ∃ se ∈ bookingsFor (extrair_dados_xml eventos).1 r,
        se.1 < converter_horario_para_minutos hb + 30 ∧
        se.2 > converter_horario_para_minutos hb := by
  rw [isSome_salasOcupadasNesteBloco]
  constructor
  · rintro ⟨p, hp, hcond, q, hq, hqr⟩
    refine ⟨(converter_horario_para_minutos ((pySplitDash p.1).getD 0 ""),
             converter_horario_para_minutos ((pySplitDash p.1).getD 1 "")), ?_, ?_⟩
    · exact List.mem_map.mpr
        ⟨p, List.mem_filter.mpr ⟨hp, (isSome_alGet r p.2).mpr ⟨q, hq, hqr⟩⟩, rfl⟩
    · simpa [aulaNoBloco, Bool.and_eq_true, decide_eq_true_eq] using hcond
  · rintro ⟨se, hse, h1, h2⟩
    rcases List.mem_map.mp hse with ⟨p, hpf, hpe⟩
    rcases List.mem_filter.mp hpf with ⟨hp, hpred⟩
    rcases (isSome_alGet r p.2).mp hpred with ⟨q, hq, hqr⟩
    refine ⟨p, hp, ?_, q, hq, hqr⟩
    rw [← hpe] at h1 h2
    simp only [aulaNoBloco, Bool.and_eq_true, decide_eq_true_eq]
    exact ⟨h1, h2⟩

/-- C4 witness: the iff instantiated at the two-booking scenario, block 09:00,
room 101. -/
theorem c4_occupied_iff_overlap_witness :
    (alGet "101" (salasOcupadasNesteBloco (extrair_dados_xml [eventoCS101, eventoMATH20]).1
        (converter_horario_para_minutos "09:00"))).isSome = true ↔
      ∃ se ∈ bookingsFor (extrair_dados_xml [eventoCS101, eventoMATH20]).1 "101",
        se.1 < converter_horario_para_minutos "09:00" + 30 ∧
        se.2 > converter_horario_para_minutos "09:00" :=
  c4_occupied_iff_overlap [eventoCS101, eventoMATH20] "09:00" "101" (by decide) (by decide)

/-- C5 counterexample: the record R1/P/10:01-10:01 has an end time not strictly
after its start, yet it is not dropped: it creates the registry entry
R1 ↦ P, it seeds the grid block 10:00, its room is recorded in that block's
occupancy, and it appears in a `buscar_horarios_sala_referencia` result. -/
theorem c5_invalid_interval_counterexample :
    ¬(converter_horario_para_minutos "10:01" < converter_horario_para_minutos "10:01") ∧
    alGet "R1" (extrair_dados_xml [eventoDuracaoZero]).2.1 = some "P" ∧
    (extrair_dados_xml [eventoDuracaoZero]).2.2 = ["10:00"] ∧
    (alGet "R1" (salasOcupadasNesteBloco (extrair_dados_xml [eventoDuracaoZero]).1 600)).isSome =
      true ∧
    buscar_horarios_sala_referencia [eventoDuracaoZero] "R1" "P" "OUTRO" =
      [("CURSO X", [("10:01", "10:01")])] := by decide

/-- C5 (amended): a record whose end time is not strictly after its start time
is retained exactly like any other complete record, wherever it sits in the
feed: its room enters the RoomRegistry (`mapa_predios`), its range string keys
the occupancy map, and it is recorded among the observed ranges; no error is
raised (the extraction loop is total). -/
theorem c5_invalid_interval_retained (evs₁ evs₂ : List Evento)
    (salaRaw predioRaw hiRaw htRaw turmaRaw : String) (prof tit : Option String)
    (hval : eh_sala_valida (pyStrip salaRaw) = true)
    (_hinv : converter_horario_para_minutos (pyStrip htRaw) ≤
      converter_horario_para_minutos (pyStrip hiRaw)) :
    (alGet (pyStrip salaRaw)
        (((evs₁ ++ ⟨some salaRaw, some predioRaw, some hiRaw, some htRaw, some turmaRaw,
            prof, tit⟩ :: evs₂).foldl processaEvento ⟨[], [], []⟩).predios)).isSome = true ∧
    (alGet (pyStrip hiRaw ++ " - " ++ pyStrip htRaw)
        (((evs₁ ++ ⟨some salaRaw, some predioRaw, some hiRaw, some htRaw, some turmaRaw,
            prof, tit⟩ :: evs₂).foldl processaEvento ⟨[], [], []⟩).mapa)).isSome = true ∧
    (pyStrip hiRaw ++ " - " ++ pyStrip htRaw) ∈
      ((evs₁ ++ ⟨some salaRaw, some predioRaw, some hiRaw, some htRaw, some turmaRaw,
          prof, tit⟩ :: evs₂).foldl processaEvento ⟨[], [], []⟩).horarios :=
  extrair_retem evs₁ evs₂ salaRaw predioRaw hiRaw htRaw turmaRaw prof tit hval

/-- C5 witness: the retention conclusion at the concrete zero-duration record
R1/P/10:01-10:01 placed as the only feed event. -/
theorem c5_invalid_interval_retained_witness :
    (alGet (pyStrip "R1")
        ((([] ++ (⟨some "R1", some "P", some "10:01", some "10:01", some "CURSO X",
            none, none⟩ : Evento) :: []).foldl processaEvento ⟨[], [], []⟩).predios)).isSome =
      true :=
  (c5_invalid_interval_retained [] [] "R1" "P" "10:01" "10:01" "CURSO X" none none
    (by decide) (by decide)).1

/-- C6: the empty feed yields the empty occupancy map, empty registry and empty
grid; availability processing returns empty lists; and each resolver operation
(conflicts for a room, free rooms during blocked ranges, alternative-room
suggestions) returns an empty result for every query — all as total functions,
so no error is raised. -/
theorem c6_empty_feed_empty_results :
    extrair_dados_xml [] = ([], [], []) ∧
    (∀ d w, processar_disponibilidade [] [] [] d w = ([], [])) ∧
    (∀ sala predio curso, buscar_horarios_sala_referencia [] sala predio curso = []) ∧
    (∀ predio bl, buscar_salas_livres [] predio bl = []) ∧
    (∀ predio bl ex m, sugerir_salas_alternativas [] predio bl ex m = "") :=
  ⟨rfl, fun _ _ => rfl, fun _ _ _ => rfl, fun _ _ => rfl,
    fun p bl ex m => sugerir_vazio p bl ex m⟩

/-- C7 counterexample: with the empty blocked set S = ∅ ⊆ T = {12:00-13:00},
the free set for T contains room A1 while the free set for S is empty — so
growing the blocked set from ∅ adds a room to the reported free set, refuting
unrestricted monotonicity. -/
theorem c7_monotone_counterexample :
    (∀ hb ∈ ([] : List (String × String)), hb ∈ [("12:00", "13:00")]) ∧
    (∃ x ∈ buscar_salas_livres [eventoA1] "P" [("12:00", "13:00")], x.sala = "A1") ∧
    buscar_salas_livres [eventoA1] "P" ([] : List (String × String)) = [] := by
  refine ⟨by simp, by decide, rfl⟩

/-- C7 (amended): for every pair of blocked sets S ⊆ T with S non-empty, every
room reported free for T is also reported free for S — adding a blocked range
to a non-empty blocked set can only shrink the reported free set. -/
theorem c7_antitone_nonempty (eventos : List Evento) (predio : String)
    (S T : List (String × String)) (hsub : ∀ hb ∈ S, hb ∈ T) (hne : S ≠ [])
    (s : String) (hT : ∃ x ∈ buscar_salas_livres eventos predio T, x.sala = s) :
    ∃ x ∈ buscar_salas_livres eventos predio S, x.sala = s := by
  rw [sala_mem_buscar_salas_livres] at hT ⊢
  rcases hT with ⟨-, p, hp, hps, hfree⟩
  refine ⟨hne, p, hp, hps, ?_⟩
  simp only [salaLivreEm, List.all_eq_true] at hfree ⊢
  intro hb hhb
  exact hfree hb (hsub hb hhb)

/-- C7 witness: the antitone law instantiated at S = {12:00-13:00} ⊆
T = {12:00-13:00, 14:00-15:00} for room A1. -/
theorem c7_antitone_nonempty_witness :
    ∃ x ∈ buscar_salas_livres [eventoA1] "P" [("12:00", "13:00")], x.sala = "A1" :=
  c7_antitone_nonempty [eventoA1] "P" [("12:00", "13:00")]
    [("12:00", "13:00"), ("14:00", "15:00")] (by decide) (by decide) "A1" (by decide)

/-- C8 counterexample: an event of course MATH20 carrying the title "Limits" is
keyed as "MATH20 - Limits", not by its course name: looking up the course name
MATH20 in the result yields nothing, so the result is not a mapping from
course names to interval sets as claimed. -/
theorem c8_title_in_key_counterexample :
    buscar_horarios_sala_referencia [eventoTitulo] "513" "P" "CS101" =
      [("MATH20 - Limits", [("10:00", "11:00")])] ∧
    alGet "MATH20" (buscar_horarios_sala_referencia [eventoTitulo] "513" "P" "CS101") =
      none := by decide

/-- C8 (amended): `buscar_horarios_sala_referencia` returns identical results
for any two excluded-course names with the same upper-casing; every stored
interval set is duplicate-free; and an interval sits under a key iff some feed
event matches the room and building, is not the excluded course (compared
case-insensitively), and produces that course/title key with that original
`(start, end)` pair — the key is "turma - titulo" when a non-empty title is
present, the bare course name otherwise. -/
theorem c8_conflitos_props :
    (∀ (eventos : List Evento) (sala predio c₁ c₂ : String), pyUpper c₁ = pyUpper c₂ →
      buscar_horarios_sala_referencia eventos sala predio c₁ =
        buscar_horarios_sala_referencia eventos sala predio c₂) ∧
    (∀ (eventos : List Evento) (sala predio c : String),
      ∀ p ∈ buscar_horarios_sala_referencia eventos sala predio c, p.2.Nodup) ∧
    (∀ (eventos : List Evento) (sala predio c chave : String) (iv : String × String),
      iv ∈ (alGet chave (buscar_horarios_sala_referencia eventos sala predio c)).getD [] ↔
        ∃ e ∈ eventos, selConflito sala predio c e = some (chave, iv)) := by
  refine ⟨?_, ?_, ?_⟩
  · intro eventos sala predio c₁ c₂ h
    have hsel : selConflito sala predio c₁ = selConflito sala predio c₂ := by
      funext e
      simp only [selConflito, h]
    rw [buscar_horarios_sala_referencia, buscar_horarios_sala_referencia, hsel]
  · intro eventos sala predio c
    exact nodup_foldSetMap _ _
  · intro eventos sala predio c chave iv
    exact mem_alGet_foldSetMap _ _ _ _

/-- C8 witness: case-invariance instantiated at the excluded-course variants
"Algebra" and "ALGEBRA", and the membership law instantiated at the titled
event. -/
theorem c8_conflitos_props_witness :
    (buscar_horarios_sala_referencia [eventoTitulo] "513" "P" "Algebra" =
      buscar_horarios_sala_referencia [eventoTitulo] "513" "P" "ALGEBRA") ∧
    (("10:00", "11:00") ∈ (alGet "MATH20 - Limits"
        (buscar_horarios_sala_referencia [eventoTitulo] "513" "P" "Algebra")).getD [] ↔
      ∃ e ∈ [eventoTitulo],
        selConflito "513" "P" "Algebra" e = some ("MATH20 - Limits", ("10:00", "11:00"))) :=
  ⟨c8_conflitos_props.1 [eventoTitulo] "513" "P" "Algebra" "ALGEBRA" (by decide),
   c8_conflitos_props.2.2 [eventoTitulo] "513" "P" "Algebra" "MATH20 - Limits"
     ("10:00", "11:00")⟩

/-- C9: time-string conversion is total with a zero fallback — whenever the
"HH:MM" parse fails the conversion returns 0, i.e. midnight; a range whose
start part fails to parse participates in the per-block overlap test exactly
as if it started at 00:00; and an otherwise complete record with a malformed
start string is not dropped by extraction: its room, range key and range are
all retained. -/
theorem c9_parse_total_fallback :
    (∀ s, parseHorarioMin s = none → converter_horario_para_minutos s = 0) ∧
    (∀ (horario_aula : String) (mb : Int),
      parseHorarioMin ((pySplitDash horario_aula).getD 0 "") = none →
      (aulaNoBloco horario_aula mb = true ↔
        ((0 : Int) < mb + 30 ∧
          converter_horario_para_minutos ((pySplitDash horario_aula).getD 1 "") > mb))) ∧
    (∀ (evs₁ evs₂ : List Evento) (salaRaw predioRaw hiRaw htRaw turmaRaw : String)
        (prof tit : Option String),
      eh_sala_valida (pyStrip salaRaw) = true →
      parseHorarioMin (pyStrip hiRaw) = none →
      (alGet (pyStrip salaRaw)
          (((evs₁ ++ ⟨some salaRaw, some predioRaw, some hiRaw, some htRaw, some turmaRaw,
              prof, tit⟩ :: evs₂).foldl processaEvento ⟨[], [], []⟩).predios)).isSome = true ∧
      (alGet (pyStrip hiRaw ++ " - " ++ pyStrip htRaw)
          (((evs₁ ++ ⟨some salaRaw, some predioRaw, some hiRaw, some htRaw, some turmaRaw,
              prof, tit⟩ :: evs₂).foldl processaEvento ⟨[], [], []⟩).mapa)).isSome = true ∧
      (pyStrip hiRaw ++ " - " ++ pyStrip htRaw) ∈
        ((evs₁ ++ ⟨some salaRaw, some predioRaw, some hiRaw, some htRaw, some turmaRaw,
            prof, tit⟩ :: evs₂).foldl processaEvento ⟨[], [], []⟩).horarios) := by
  refine ⟨?_, ?_, ?_⟩
  · intro s h
    rw [converter_horario_para_minutos, h]
    rfl
  · intro ha mb h
    have h0 : converter_horario_para_minutos ((pySplitDash ha).getD 0 "") = 0 := by
      rw [converter_horario_para_minutos, h]
      rfl
    simp only [aulaNoBloco]
    rw [h0]
    simp only [Bool.and_eq_true, decide_eq_true_eq]
  · intro evs₁ evs₂ salaRaw predioRaw hiRaw htRaw turmaRaw prof tit hval _hmal
    exact extrair_retem evs₁ evs₂ salaRaw predioRaw hiRaw htRaw turmaRaw prof tit hval

/-- C9 witness: the zero fallback at the unparsable string "banana"; the
midnight behaviour of the block test for the range "xx - 10:00"; and retention
of a record whose start string "xx" does not parse. -/
theorem c9_parse_total_fallback_witness :
    converter_horario_para_minutos "banana" = 0 ∧
    (aulaNoBloco "xx - 10:00" 0 = true ↔
      ((0 : Int) < 0 + 30 ∧
        converter_horario_para_minutos ((pySplitDash "xx - 10:00").getD 1 "") > 0)) ∧
    (alGet (pyStrip "R1")
        ((([] ++ (⟨some "R1", some "P", some "xx", some "10:00", some "C",
            none, none⟩ : Evento) :: []).foldl processaEvento ⟨[], [], []⟩).predios)).isSome =
      true :=
  ⟨c9_parse_total_fallback.1 "banana" (by decide),
   c9_parse_total_fallback.2.1 "xx - 10:00" 0 (by decide),
   (c9_parse_total_fallback.2.2 [] [] "R1" "P" "xx" "10:00" "C" none none
     (by decide) (by decide)).1⟩

/-- C10: `buscar_salas_livres` emits exactly one row per qualifying room per
blocked range — its output length is the number of qualifying rooms times the
number of blocked ranges — and in particular the empty blocked set yields the
empty list even though every room then qualifies vacuously. -/
theorem c10_livres_length (eventos : List Evento) (predio : String) :
    (∀ bl, (buscar_salas_livres eventos predio bl).length =
      ((salasPredioDe eventos predio).filter (fun p => salaLivreEm p.2 bl)).length *
        bl.length) ∧
    buscar_salas_livres eventos predio [] = [] := by
  constructor
  · intro bl
    rw [buscar_salas_livres, length_livres_foldl]
    simp
  · have h := length_livres_foldl predio [] (salasPredioDe eventos predio) []
    simp only [List.length_nil, Nat.mul_zero, Nat.add_zero] at h
    rw [buscar_salas_livres]
    exact List.length_eq_zero.mp h
